import Mathlib

/-!
# BioInsight-AI discovery pipeline — verification development

Shallow embedding of the client-side literature-discovery pipeline of the
BioInsight-AI repository (`src/services/geminiService.ts`, with earlier
revisions of the same service kept in `src/unnamed/`).  External runtime
facilities (the JS `Date` parser, `Math.random`, `localStorage`, the
completion service) are modelled as explicit parameters; every piece of
pipeline logic (JSON extraction, grounding verification, enum
normalisation, cache handling, the swarm orchestrator, deduplication) is
translated from the TypeScript source.

Modelling conventions:
* JS strings are Lean `String`s; a missing (`undefined`) string field is
  encoded as `""` (both are falsy and compare unequal to every non-empty
  string, which is the only way the pipeline inspects them).
* Machine numbers are `Int`/`Nat`.  The single fractional comparison in the
  source (`matches/total >= 0.4`) is modelled exactly as `5*matches ≥
  2*total`; for the list sizes that can occur the IEEE-double comparison
  agrees with the rational one, because `|m/n - 2/5| ≥ 1/(5n)` exceeds the
  rounding error whenever `m/n ≠ 2/5`.
* `toLowerCase`/`toUpperCase` are modelled on ASCII letters (every string
  the pipeline compares case-insensitively is ASCII).
* Exceptions are `Except Unit`; code that catches them is translated by
  matching on the `Except` value.
-/

/-- ASCII lower-casing of one character, modelling JS `toLowerCase`. -/
def lowerChar (c : Char) : Char :=
  if 'A' ≤ c ∧ c ≤ 'Z' then Char.ofNat (c.toNat + 32) else c

/-- ASCII upper-casing of one character, modelling JS `toUpperCase`. -/
def upperChar (c : Char) : Char :=
  if 'a' ≤ c ∧ c ≤ 'z' then Char.ofNat (c.toNat - 32) else c

/-- Lower-case a string (ASCII model of JS `String.prototype.toLowerCase`). -/
def toLowerStr (s : String) : String :=
  String.mk (s.toList.map lowerChar)

/-- Upper-case a string (ASCII model of JS `String.prototype.toUpperCase`). -/
def toUpperStr (s : String) : String :=
  String.mk (s.toList.map upperChar)

/-- ASCII whitespace, the fragment of the JS `\s` class the pipeline meets. -/
def isSpaceJS (c : Char) : Bool :=
  c = ' ' ∨ c = '\t' ∨ c = '\n' ∨ c = '\x0d' ∨ c = '\x0b' ∨ c = '\x0c'

/-- Is `c` a lower-case ASCII letter or digit? -/
def isAlnumLower (c : Char) : Bool :=
  ('a' ≤ c ∧ c ≤ 'z') ∨ ('0' ≤ c ∧ c ≤ '9')

/-- Is `c` a lower-case ASCII letter? -/
def isLowerLetter (c : Char) : Bool :=
  'a' ≤ c ∧ c ≤ 'z'

/-- Does the character list `l` start with `p`? -/
def listStartsWith : List Char → List Char → Bool
  | _, [] => true
  | [], _ :: _ => false
  | c :: cs, p :: ps => c = p && listStartsWith cs ps

/-- First index at which `pat` occurs in `cs` (substring search),
modelling JS `indexOf` on strings. -/
def indexOfSubAux (pat : List Char) : List Char → Nat → Option Nat
  | [], i => if pat = [] then some i else none
  | c :: cs, i =>
    if listStartsWith (c :: cs) pat then some i else indexOfSubAux pat cs (i + 1)

/-- First index of substring `pat` in `s`, `none` when absent. -/
def indexOfSub (s pat : String) : Option Nat :=
  indexOfSubAux pat.toList s.toList 0

/-- Substring containment, modelling JS `String.prototype.includes`. -/
def containsS (s pat : String) : Bool :=
  (indexOfSub s pat).isSome

/-- First index of character `c` in `s` (JS `indexOf`), `none` for `-1`. -/
def indexOfCharStr (s : String) (c : Char) : Option Nat :=
  indexOfSubAux [c] s.toList 0

/-- Last index of character `c` in `s` (JS `lastIndexOf`), `none` for `-1`. -/
def lastIndexOfCharStr (s : String) (c : Char) : Option Nat :=
  ((List.range s.length).filter (fun i => s.toList.get? i = some c)).getLast?

/-- JS `String.prototype.substring s a b`: clamps both arguments to the
string length and swaps them when `a > b`. -/
def substringJS (s : String) (a b : Nat) : String :=
  let n := s.length
  let a' := min a n
  let b' := min b n
  let lo := min a' b'
  let hi := max a' b'
  String.mk ((s.toList.drop lo).take (hi - lo))

/-- JS `String.prototype.trim` (ASCII-whitespace model). -/
def trimJS (s : String) : String :=
  String.mk (((s.toList.dropWhile (isSpaceJS ·)).reverse.dropWhile (isSpaceJS ·)).reverse)

/-- Replace the first occurrence of `pat` in `s` by `repl`, modelling JS
`String.prototype.replace` with a plain-string pattern. -/
def replaceFirst (s pat repl : String) : String :=
  match indexOfSub s pat with
  | none => s
  | some i =>
      String.mk (s.toList.take i) ++ repl ++ String.mk (s.toList.drop (i + pat.length))

/-- Split a character list on runs of whitespace (the effect of JS
`split(/\s+/)` once empty fragments are discarded by a length filter). -/
def splitOnSpaces : List Char → List Char → List String
  | [], acc => [String.mk acc.reverse]
  | c :: cs, acc =>
    if isSpaceJS c then String.mk acc.reverse :: splitOnSpaces cs []
    else splitOnSpaces cs (c :: acc)

/-- Stable insertion of a string into a sorted list (code-unit order). -/
def insertSortedStr (x : String) : List String → List String
  | [] => [x]
  | y :: ys => if x < y then x :: y :: ys else y :: insertSortedStr x ys

/-- Stable string sort, modelling the default JS `Array.prototype.sort`
(lexicographic comparison of the string representations). -/
def sortStringsJS : List String → List String
  | [] => []
  | x :: xs => insertSortedStr x (sortStringsJS xs)

/-- Civil date of a day count since 1970-01-01 (Gregorian, the algorithm
used by every `Date`→ISO conversion). Returns `(year, month, day)`. -/
def civilFromDays (z0 : Int) : Int × Int × Int :=
  let z := z0 + 719468
  let era := Int.fdiv z 146097
  let doe := z - era * 146097
  let yoe := Int.fdiv (doe - Int.fdiv doe 1460 + Int.fdiv doe 36524 - Int.fdiv doe 146096) 365
  let y := yoe + era * 400
  let doy := doe - (365 * yoe + Int.fdiv yoe 4 - Int.fdiv yoe 100)
  let mp := Int.fdiv (5 * doy + 2) 153
  let d := doy - Int.fdiv (153 * mp + 2) 5 + 1
  let m := mp + (if mp < 10 then 3 else -9)
  (y + (if m ≤ 2 then 1 else 0), m, d)

/-- Left-pad the decimal form of a nonnegative integer to two digits. -/
def pad2 (n : Int) : String :=
  if n < 10 then "0" ++ toString n else toString n

/-- `new Date(ms).toISOString().split('T')[0]` — the UTC calendar date of an
epoch-millisecond instant, as `YYYY-MM-DD`. -/
def toIsoDate (ms : Int) : String :=
  let days := Int.fdiv ms 86400000
  let c := civilFromDays days
  toString c.1 ++ "-" ++ pad2 c.2.1 ++ "-" ++ pad2 c.2.2


/-! ## JSON values and `JSON.parse`

`parseJSON` in `src/services/geminiService.ts` feeds slices of the model
response to the runtime's `JSON.parse`.  The value universe and the parser
are modelled here; a thrown `SyntaxError` is `Except.error ()`.  Numbers
keep their source lexeme (the pipeline never computes with them). -/

/-- A JavaScript value produced by `JSON.parse`. -/
inductive JsValue : Type where
  | null : JsValue
  | bool : Bool → JsValue
  | num : String → JsValue
  | str : String → JsValue
  | arr : List JsValue → JsValue
  | obj : List (String × JsValue) → JsValue

/-- JSON insignificant whitespace. -/
def skipWs (cs : List Char) : List Char :=
  cs.dropWhile (fun c => c = ' ' ∨ c = '\t' ∨ c = '\n' ∨ c = '\x0d')

/-- Value of a hexadecimal digit. -/
def hexVal (c : Char) : Option Nat :=
  if '0' ≤ c ∧ c ≤ '9' then some (c.toNat - 48)
  else if 'a' ≤ c ∧ c ≤ 'f' then some (c.toNat - 87)
  else if 'A' ≤ c ∧ c ≤ 'F' then some (c.toNat - 55)
  else none

/-- Body of a JSON string literal (after the opening quote): returns the
decoded string and the input following the closing quote.  Lone `\u`
surrogate halves are mapped through `Char.ofNat`'s validity fallback; the
pipeline never relies on them. -/
def parseStringLitAux : List Char → List Char → Option (String × List Char)
  | [], _ => none
  | c :: cs, acc =>
    if c = '"' then some (String.mk acc.reverse, cs)
    else if c = '\\' then
      match cs with
      | [] => none
      | e :: cs' =>
        if e = '"' then parseStringLitAux cs' ('"' :: acc)
        else if e = '\\' then parseStringLitAux cs' ('\\' :: acc)
        else if e = '/' then parseStringLitAux cs' ('/' :: acc)
        else if e = 'b' then parseStringLitAux cs' ('\x08' :: acc)
        else if e = 'f' then parseStringLitAux cs' ('\x0c' :: acc)
        else if e = 'n' then parseStringLitAux cs' ('\n' :: acc)
        else if e = 'r' then parseStringLitAux cs' ('\x0d' :: acc)
        else if e = 't' then parseStringLitAux cs' ('\t' :: acc)
        else if e = 'u' then
          match cs' with
          | h1 :: h2 :: h3 :: h4 :: cs'' =>
            match hexVal h1, hexVal h2, hexVal h3, hexVal h4 with
            | some a, some b, some c2, some d =>
                parseStringLitAux cs'' (Char.ofNat (((a * 16 + b) * 16 + c2) * 16 + d) :: acc)
            | _, _, _, _ => none
          | _ => none
        else none
    else if c.toNat < 32 then none
    else parseStringLitAux cs (c :: acc)

/-- Lex a JSON number at the head of the input, returning its lexeme. -/
def lexNumber (cs : List Char) : Option (String × List Char) :=
  let (sign, cs1) :=
    match cs with
    | '-' :: r => (['-'], r)
    | _ => (([] : List Char), cs)
  match cs1 with
  | c :: r1 =>
    if c = '0' then
      let (intPart, rest) := (['0'], r1)
      lexNumberFrac (sign ++ intPart) rest
    else if c.isDigit then
      let intPart := c :: r1.takeWhile Char.isDigit
      lexNumberFrac (sign ++ intPart) (r1.dropWhile Char.isDigit)
    else none
  | [] => none
where
  /-- Optional fraction then optional exponent. -/
  lexNumberFrac (pre : List Char) (cs : List Char) : Option (String × List Char) :=
    match cs with
    | '.' :: r =>
      let ds := r.takeWhile Char.isDigit
      if ds = [] then none
      else lexNumberExp (pre ++ '.' :: ds) (r.dropWhile Char.isDigit)
    | _ => lexNumberExp pre cs
  /-- Optional exponent part. -/
  lexNumberExp (pre : List Char) (cs : List Char) : Option (String × List Char) :=
    match cs with
    | e :: r =>
      if e = 'e' ∨ e = 'E' then
        let (sgn, r1) :=
          match r with
          | '+' :: r2 => (['+'], r2)
          | '-' :: r2 => (['-'], r2)
          | _ => (([] : List Char), r)
        let ds := r1.takeWhile Char.isDigit
        if ds = [] then none
        else some (String.mk (pre ++ e :: sgn ++ ds), r1.dropWhile Char.isDigit)
      else some (String.mk pre, cs)
    | [] => some (String.mk pre, [])

mutual

/-- Parse one JSON value (fuel-indexed). -/
def parseVal : Nat → List Char → Except Unit (JsValue × List Char)
  | 0, _ => .error ()
  | n + 1, cs0 =>
    let cs := skipWs cs0
    match cs with
    | [] => .error ()
    | '"' :: rest =>
      match parseStringLitAux rest [] with
      | some (s, rest') => .ok (.str s, rest')
      | none => .error ()
    | '[' :: rest =>
      let rest' := skipWs rest
      match rest' with
      | ']' :: r2 => .ok (.arr [], r2)
      | _ =>
        match parseElems n rest' with
        | .ok (l, r2) => .ok (.arr l, r2)
        | .error e => .error e
    | '\x7b' :: rest =>
      let rest' := skipWs rest
      match rest' with
      | '\x7d' :: r2 => .ok (.obj [], r2)
      | _ =>
        match parseFields n rest' with
        | .ok (l, r2) => .ok (.obj l, r2)
        | .error e => .error e
    | c :: _ =>
      if listStartsWith cs ['t', 'r', 'u', 'e'] then .ok (.bool true, cs.drop 4)
      else if listStartsWith cs ['f', 'a', 'l', 's', 'e'] then .ok (.bool false, cs.drop 5)
      else if listStartsWith cs ['n', 'u', 'l', 'l'] then .ok (.null, cs.drop 4)
      else if c = '-' ∨ c.isDigit then
        match lexNumber cs with
        | some (s, rest) => .ok (.num s, rest)
        | none => .error ()
      else .error ()

/-- Parse the elements of a nonempty JSON array, up to and including `]`. -/
def parseElems : Nat → List Char → Except Unit (List JsValue × List Char)
  | 0, _ => .error ()
  | n + 1, cs =>
    match parseVal n cs with
    | .error e => .error e
    | .ok (v, rest) =>
      let rest' := skipWs rest
      match rest' with
      | ',' :: r2 =>
        match parseElems n r2 with
        | .ok (l, r3) => .ok (v :: l, r3)
        | .error e => .error e
      | ']' :: r2 => .ok ([v], r2)
      | _ => .error ()

/-- Parse the members of a nonempty JSON object, up to and including the
closing brace. -/
def parseFields : Nat → List Char → Except Unit (List (String × JsValue) × List Char)
  | 0, _ => .error ()
  | n + 1, cs =>
    let cs' := skipWs cs
    match cs' with
    | '"' :: rest =>
      match parseStringLitAux rest [] with
      | none => .error ()
      | some (k, rest') =>
        let rest2 := skipWs rest'
        match rest2 with
        | ':' :: r3 =>
          match parseVal n r3 with
          | .error e => .error e
          | .ok (v, r4) =>
            let r5 := skipWs r4
            match r5 with
            | ',' :: r6 =>
              match parseFields n r6 with
              | .ok (l, r7) => .ok ((k, v) :: l, r7)
              | .error e => .error e
            | '\x7d' :: r6 => .ok ([(k, v)], r6)
            | _ => .error ()
        | _ => .error ()
    | _ => .error ()

end

/-- `JSON.parse`: whole-input parse; anything but a single JSON value with
surrounding whitespace raises (`Except.error`). -/
def jsonParse (s : String) : Except Unit JsValue :=
  match parseVal (s.length + 1) s.toList with
  | .ok (v, rest) => if skipWs rest = [] then .ok v else .error ()
  | .error e => .error e


/-- Content of the first ```` ```json ```` fenced block, as captured by the
non-global regex `/```json\n([\s\S]*?)\n```/` of
`src/services/geminiService.ts`: the earliest occurrence of ```` ```json ````
followed by a newline, up to the first subsequent `"\n```"`. -/
def firstFenceContent (text : String) : Option String :=
  match indexOfSub text "```json\n" with
  | none => none
  | some i =>
    let after := text.toList.drop (i + 8)
    match indexOfSubAux "\n```".toList after 0 with
    | none => none
    | some j => some (String.mk (after.take j))

/-- All fenced-block contents in scan order, as matched by the *global* form
of the same regex (used by the earliest revision of the service in
`src/unnamed/part_012`, and by the spec's description of the parser). -/
def fenceScan : Nat → List Char → List String
  | 0, _ => []
  | n + 1, cs =>
    match indexOfSubAux "```json\n".toList cs 0 with
    | none => []
    | some i =>
      let after := cs.drop (i + 8)
      match indexOfSubAux "\n```".toList after 0 with
      | none => []
      | some j => String.mk (after.take j) :: fenceScan n (after.drop (j + 4))

/-- Content of the *last* fenced JSON block — the block the spec says the
parser should parse. -/
def lastFenceContent (text : String) : Option String :=
  (fenceScan (text.length + 1) text.toList).getLast?

/-- `parseJSON` of `src/services/geminiService.ts` (lines 73–88): parse the
first fenced JSON block if one exists; otherwise parse the slice from the
first `[` to the last `]`; a `JSON.parse` exception is caught and yields
`[]` — note that a failed fenced parse jumps straight to the `catch`, so
the bracket fallback is *not* attempted in that case. -/
def parseJSON (text : String) : JsValue :=
  match firstFenceContent text with
  | some content =>
    match jsonParse content with
    | .ok v => v
    | .error _ => .arr []
  | none =>
    match indexOfCharStr text '[', lastIndexOfCharStr text ']' with
    | some s, some e =>
      match jsonParse (substringJS text s (e + 1)) with
      | .ok v => v
      | .error _ => .arr []
    | _, _ => .arr []


/-! ## The typed taxonomy (`src/types.ts`)

The current revision of `src/types.ts` is not part of the snapshot (only
earlier revisions survive in `src/unnamed/`), although
`src/services/geminiService.ts` imports it.  Each enum is modelled as its
compiled JS form: an object whose *keys* are the member names and whose
*values* are the member strings — the distinction matters because the
service tests membership with the JS `in` operator, which consults keys. -/

/-- Modelled from the spec: the `DiseaseTopic` enum of the missing current
`src/types.ts` (§3 "closed enum"), as (member-name, value) pairs.  The
member set is fixed by its users: `TOPIC_EXPANSION`'s keys, the
`DiseaseTopic.MASH` comment "Returns 'MASH / NASH'" in
`geminiService.ts`, and the MASH-subtype display logic in
`PaperCard.tsx`. -/
def diseaseTopicPairs : List (String × String) :=
  [("CVD", "CVD"), ("CKD", "CKD"), ("MASH", "MASH / NASH"),
   ("Diabetes", "Diabetes"), ("Obesity", "Obesity")]

/-- Modelled from the spec: the `PublicationType` enum of the missing
current `src/types.ts`, from the latest surviving revision plus the
`Patent` member that `geminiService.ts` uses. -/
def publicationTypePairs : List (String × String) :=
  [("Preprint", "Preprint"), ("PeerReviewed", "Peer Reviewed"),
   ("News", "News/Analysis"), ("ConferenceAbstract", "Conference Abstract"),
   ("Poster", "Poster"), ("ReviewArticle", "Review Article"),
   ("MetaAnalysis", "Meta-Analysis"), ("Patent", "Patent")]

/-- Modelled from the spec: the `StudyType` enum of the missing current
`src/types.ts`; identical in every surviving revision and echoed by the
prompt schema in `geminiService.ts`. -/
def studyTypePairs : List (String × String) :=
  [("ClinicalTrial", "Clinical Trial"), ("HumanCohort", "Human Cohort (Non-RCT)"),
   ("PreClinical", "Pre-clinical"), ("Simulated", "Simulated")]

/-- Modelled from the spec: the `Methodology` enum of the missing current
`src/types.ts`; identical in every surviving revision. -/
def methodologyPairs : List (String × String) :=
  [("AIML", "AI/ML"), ("LabExperimental", "Lab Experimental"),
   ("Statistical", "Statistical")]

/-- Modelled from the spec: the `ResearchModality` enum of the missing
current `src/types.ts`, from the latest surviving revision. -/
def modalityPairs : List (String × String) :=
  [("SingleCell", "Single Cell"), ("Genetics", "Genetics"),
   ("Proteomics", "Proteomics"), ("Transcriptomics", "Transcriptomics"),
   ("Metabolomics", "Metabolomics"), ("Lipidomics", "Lipidomics"),
   ("MultiOmics", "Multi-omics"), ("EHR", "EHR"), ("Imaging", "Imaging"),
   ("ClinicalData", "Clinical Data"), ("Other", "Other")]

/-- The JS `in` operator applied to a compiled string enum: membership in
the *key* (member-name) set.  (Inherited `Object.prototype` properties are
not modelled; no claim touches them.) -/
def jsIn (s : String) (pairs : List (String × String)) : Bool :=
  pairs.any (fun kv => kv.1 == s)

/-- The value set of an enum — what the spec calls its closed set of legal
values. -/
def enumValues (pairs : List (String × String)) : List String :=
  pairs.map (fun kv => kv.2)

/-- The legal `StudyType` values. -/
def studyTypeValues : List String := enumValues studyTypePairs

/-- The legal `DiseaseTopic` values. -/
def diseaseTopicValues : List String := enumValues diseaseTopicPairs

/-! ## Grounding verifier (`runHybridAgent`, geminiService.ts 122–251) -/

/-- A grounding citation (`groundingChunks[i].web`); `""` encodes a missing
field. -/
structure Chunk where
  uri : String
  title : String
  snippet : String
deriving DecidableEq, Repr

/-- A parsed record as the verification loop reads it (the fields the loop
accesses on each element of `aiJson`); `""` encodes a missing string field,
while `authors` keeps the array/absent distinction (an empty array is
truthy in JS, `undefined` is not). -/
structure AiItem where
  url : String
  title : String
  date : String
  doi : String
  topic : String
  publicationType : String
  studyType : String
  methodology : String
  modality : String
  abstractHighlight : String
  drugAndTarget : String
  context : String
  journalOrConference : String
  authors : Option (List String)
deriving DecidableEq, Repr

/-- An emitted paper record (the object pushed onto `verifiedPapers`).
Enum-like fields are strings — exactly what reaches the UI. -/
structure PaperData where
  id : String
  title : String
  url : String
  journalOrConference : String
  date : String
  authors : List String
  topic : String
  publicationType : String
  studyType : String
  methodology : String
  modality : String
  abstractHighlight : String
  drugAndTarget : String
  context : String
  validationScore : Nat
  authorsVerified : Bool
  isLive : Bool
  isPolished : Bool
deriving DecidableEq, Repr

/-- The three feed variants of the service. -/
inductive FeedType : Type where
  | live : FeedType
  | ai : FeedType
  | patent : FeedType
deriving DecidableEq, Repr

/-- The feed-type string (`'live' | 'ai' | 'patent'`). -/
def ftStr : FeedType → String
  | .live => "live"
  | .ai => "ai"
  | .patent => "patent"

/-- `feedType.toUpperCase()`. -/
def ftUpper : FeedType → String
  | .live => "LIVE"
  | .ai => "AI"
  | .patent => "PATENT"

/-- Ambient JS runtime facilities of one agent run: `new Date(string)`
(`none` models an Invalid Date), `Date.now()`/`new Date()` during the run,
and `Math.random().toString(36).substr(2, 9)` as a draw indexed by how
many records have been pushed. -/
structure VerifyEnv where
  parseDate : String → Option Int
  now : Int
  rand : Nat → String

/-- `tokenize` inside `checkTokenOverlap`: lower-case, strip everything but
`[a-z0-9\s]`, split on whitespace runs, keep words of length `> 2`. -/
def tokenizeJS (s : String) : List String :=
  let cleaned := (s.toList.map lowerChar).filter (fun c => isAlnumLower c || isSpaceJS c)
  (splitOnSpaces cleaned []).filter (fun w => 2 < w.length)

/-- `checkTokenOverlap` (geminiService.ts 90–98): the fraction of
record-title tokens that contain or are contained in some target token
must reach 0.4.  The float comparison `m/n >= 0.4` is the exact
`5*m ≥ 2*n` (see the header note). -/
def checkTokenOverlap (aiTitle targetText : String) : Bool :=
  if aiTitle = "" ∨ targetText = "" then false
  else
    let aiTokens := tokenizeJS aiTitle
    let targetTokens := tokenizeJS targetText
    if aiTokens = [] then false
    else
      let m := aiTokens.countP (fun tok =>
        targetTokens.any (fun tt => containsS tt tok || containsS tok tt))
      decide (2 * aiTokens.length ≤ 5 * m)

/-- `mapToDiseaseTopic` (geminiService.ts 101–118): synonym bucket first,
then a case-sensitive match of the upper-cased input against member names,
then against upper-cased values, defaulting to `CVD`. -/
def mapToDiseaseTopic (input : String) : String :=
  let upper := toUpperStr input
  if containsS upper "NASH" || containsS upper "MASH" ||
     containsS upper "MASLD" || containsS upper "STEATOHEPATITIS" then
    "MASH / NASH"
  else
    match diseaseTopicPairs.find? (fun kv => upper == kv.1) with
    | some kv => kv.2
    | none =>
      match diseaseTopicPairs.find? (fun kv => upper == toUpperStr kv.2) with
      | some kv => kv.2
      | none => "CVD"

/-- The predicate of `groundingChunks.find(...)` (geminiService.ts
196–201): a chunk with a truthy `uri` matches by exact URL equality (when
the record claims a URL) or by token overlap with the chunk's *title*. -/
def chunkMatches (it : AiItem) (c : Chunk) : Bool :=
  if c.uri = "" then false
  else
    let exactUrlMatch := it.url != "" && c.uri == it.url
    let titleMatch := if c.title ≠ "" then checkTokenOverlap it.title c.title else false
    exactUrlMatch || titleMatch

/-- The first matching grounding chunk for a record, if any. -/
def findMatchedChunk (chunks : List Chunk) (it : AiItem) : Option Chunk :=
  chunks.find? (chunkMatches it)

/-- The lower-cased `title + " " + (snippet || "")` text of a matched
chunk. -/
def snippetTextOf (c : Chunk) : String :=
  toLowerStr (c.title ++ " " ++ c.snippet)

/-- Does the chunk's title-plus-snippet text contain `"2024"` or
`"2025"`? -/
def snippetHasRecentYear (c : Chunk) : Bool :=
  containsS (snippetTextOf c) "2024" || containsS (snippetTextOf c) "2025"

/-- Date parsing and filtering (geminiService.ts 210–221): a parseable
date must reach the cutoff; an unparseable one is replaced by `new Date()`
when the matched chunk's text mentions 2024/2025, else the record is
skipped.  Returns the epoch-ms instant the emitted `date` is rendered
from, or `none` when the record is dropped. -/
def dateResultOf (env : VerifyEnv) (cutoff : Int) (it : AiItem) (c : Chunk) : Option Int :=
  match env.parseDate it.date with
  | some t => if t < cutoff then none else some t
  | none =>
    if snippetHasRecentYear c then
      if env.now < cutoff then none else some env.now
    else none

/-- `new URL(u).hostname`, simplified to scheme-delimiter splitting: the
text between `"://"` and the next `/ ? # :`, lower-cased; `none` models
the `TypeError` thrown on an unparsable URL.  (Userinfo syntax and exotic
schemes are not modelled; no pipeline URL uses them.) -/
def jsURLHostname (u : String) : Option String :=
  match indexOfSub u "://" with
  | none => none
  | some i =>
    let host := (u.toList.drop (i + 3)).takeWhile
      (fun c => ¬ (c = '/' ∨ c = '?' ∨ c = '#' ∨ c = ':'))
    if host = [] then none else some (toLowerStr (String.mk host))

/-- The `finalUrl` of a matched record (geminiService.ts 205–208): the DOI
canonical form when a truthy `doi` containing `"10."` was extracted, else
the matched chunk's URI. -/
def finalUrlOf (it : AiItem) (c : Chunk) : String :=
  if it.doi ≠ "" ∧ containsS it.doi "10." then "https://doi.org/" ++ trimJS it.doi
  else c.uri

/-- Build the pushed record (geminiService.ts 223–242).  `k` counts the
records pushed so far (it indexes the `Math.random` draw); `dateMs` is the
instant chosen by `dateResultOf`.  Computing `journalOrConference` can
throw (`new URL` on an unparsable `finalUrl` when the record carries no
journal), which aborts the whole agent — hence `Except`. -/
def emitRecord (env : VerifyEnv) (ft : FeedType) (k : Nat) (it : AiItem) (c : Chunk)
    (dateMs : Int) : Except Unit PaperData := do
  let finalUrl := finalUrlOf it c
  let journal ←
    if it.journalOrConference ≠ "" then pure it.journalOrConference
    else
      match jsURLHostname finalUrl with
      | some h => pure (replaceFirst h "www." "")
      | none => throw ()
  pure
    { id := ftStr ft ++ "-" ++ env.rand k
      title := it.title
      url := finalUrl
      journalOrConference := journal
      date := toIsoDate dateMs
      authors := it.authors.getD ["Unknown"]
      topic := mapToDiseaseTopic it.topic
      publicationType :=
        if ft = .patent then "Patent"
        else if jsIn it.publicationType publicationTypePairs then it.publicationType
        else "Peer Reviewed"
      studyType := if jsIn it.studyType studyTypePairs then it.studyType else "Pre-clinical"
      methodology :=
        if ft = .ai then "AI/ML"
        else if jsIn it.methodology methodologyPairs then it.methodology
        else "Statistical"
      modality := if jsIn it.modality modalityPairs then it.modality else "Other"
      abstractHighlight :=
        if it.abstractHighlight ≠ "" then it.abstractHighlight else "Summary unavailable."
      drugAndTarget := if it.drugAndTarget ≠ "" then it.drugAndTarget else "N/A"
      context := if it.context ≠ "" then it.context else ftUpper ft ++ " Feed Result"
      validationScore := 90
      authorsVerified := false
      isLive := true
      isPolished := false }

/-- The verification loop over `aiJson` (geminiService.ts 195–243):
records without a matching chunk or failing the date filter are skipped;
the rest are emitted in order. -/
def verifyLoop (env : VerifyEnv) (cutoff : Int) (ft : FeedType) (chunks : List Chunk) :
    List AiItem → Nat → Except Unit (List PaperData)
  | [], _ => .ok []
  | it :: rest, k =>
    match findMatchedChunk chunks it with
    | none => verifyLoop env cutoff ft chunks rest k
    | some c =>
      match dateResultOf env cutoff it c with
      | none => verifyLoop env cutoff ft chunks rest k
      | some d => do
        let r ← emitRecord env ft k it c d
        let rs ← verifyLoop env cutoff ft chunks rest (k + 1)
        pure (r :: rs)

/-- The verifier applied to a whole parsed response. -/
def verifyRecords (env : VerifyEnv) (cutoff : Int) (ft : FeedType)
    (items : List AiItem) (chunks : List Chunk) : Except Unit (List PaperData) :=
  verifyLoop env cutoff ft chunks items 0

/-- Is a parsed record accepted by the verifier — does some chunk match it
and does it pass the date filter? -/
def accepted (env : VerifyEnv) (cutoff : Int) (chunks : List Chunk) (it : AiItem) : Bool :=
  match findMatchedChunk chunks it with
  | none => false
  | some c => (dateResultOf env cutoff it c).isSome

/-- One completion response, already through `parseJSON`: the parsed
records and the grounding chunks.  (The raw-text-to-record decoding is the
`parseJSON` layer above; the stream model consumes its result.) -/
structure AgentResp where
  items : List AiItem
  chunks : List Chunk

/-- Post-processing of a successful completion response (geminiService.ts
186–245): bail out on an empty record list or empty grounding, then run
the verification loop; any exception inside the `try` yields `[]`. -/
def processResp (env : VerifyEnv) (cutoff : Int) (ft : FeedType) (r : AgentResp) :
    List PaperData :=
  if r.items.length = 0 ∨ r.chunks.length = 0 then []
  else
    match verifyRecords env cutoff ft r.items r.chunks with
    | .ok l => l
    | .error _ => []

/-- `runHybridAgent` (geminiService.ts 122–251) given the outcome of its
single completion call (`none` = the call threw): a failed call or any
processing error is caught and the agent resolves to `[]`. -/
def runHybridAgentM (env : VerifyEnv) (cutoff : Int) (ft : FeedType)
    (resp? : Option AgentResp) : List PaperData :=
  match resp? with
  | none => []
  | some r => processResp env cutoff ft r

/-- `runHybridAgent` together with how many completion calls it issues:
the current service performs exactly one `ai.models.generateContent` call,
with no retry and no fallback. -/
def runHybridAgentCalls (env : VerifyEnv) (cutoff : Int) (ft : FeedType)
    (attempts : Nat → Option AgentResp) : List PaperData × Nat :=
  (runHybridAgentM env cutoff ft (attempts 0), 1)

/-- `generateContentWithRetry` of the earlier revision
(`src/unnamed/part_014`, lines 43–56), over the same attempt oracle:
attempt `i`; on failure retry until `retries` extra attempts are spent,
rethrowing the last failure.  Returns the outcome and the number of calls
made. -/
def retryFrom (attempts : Nat → Option α) : Nat → Nat → Option α × Nat
  | i, 0 => (attempts i, 1)
  | i, n + 1 =>
    match attempts i with
    | some r => (some r, 1)
    | none =>
      let (res, k) := retryFrom attempts (i + 1) n
      (res, k + 1)

/-- The earlier revision's retry entry point (`retries = 2` by default at
its call sites). -/
def generateContentWithRetryM (attempts : Nat → Option α) (retries : Nat) :
    Option α × Nat :=
  retryFrom attempts 0 retries

/-- The exponential backoff of the earlier revision's retry loop:
`1000 * 2^i` ms before re-attempting after failure `i`. -/
def retryBackoffDelay (i : Nat) : Nat := 1000 * 2 ^ i

/-! ## Cache layer (geminiService.ts 7–71)

`localStorage` is modelled as a typed key-value map; the
`JSON.stringify`/`JSON.parse` round-trip of a `CacheEntry` through string
storage is the identity for these values, and the `try`/`catch` around a
corrupt stored string (which yields `null`, i.e. a miss) is subsumed by
typed storage. -/

/-- A cache entry: `{ timestamp: epoch-ms, papers }`. -/
structure CacheEntryM where
  timestamp : Int
  papers : List PaperData
deriving DecidableEq, Repr

/-- The browser's origin-scoped key-value store. -/
def LocalStore : Type := String → Option CacheEntryM

/-- `localStorage.setItem`. -/
def setItem (store : LocalStore) (key : String) (e : CacheEntryM) : LocalStore :=
  fun k => if k = key then some e else store k

/-- `localStorage.removeItem`. -/
def removeItem (store : LocalStore) (key : String) : LocalStore :=
  fun k => if k = key then none else store k

/-- `CACHE_TTL_LIVE` (15 min), `CACHE_TTL_AI` (24 h), `CACHE_TTL_PATENT`
(7 days), selected as in `checkCache` (lines 43–45). -/
def ttlOf : FeedType → Int
  | .live => 900000
  | .ai => 86400000
  | .patent => 604800000

/-- `getCacheKey` (geminiService.ts 29–32): prefix, feed type and the
sorted topic list joined by underscores. -/
def getCacheKey (t : FeedType) (topics : List String) : String :=
  "bioinsight_cache_v2_" ++ ftStr t ++ "_" ++ String.intercalate "_" (sortStringsJS topics)

/-- `checkCache` (geminiService.ts 34–58): a fresh entry is returned as a
hit; an entry at or past its TTL is *removed from the store* and reported
as a miss.  Returns the result together with the store after the read. -/
def checkCacheM (store : LocalStore) (now : Int) (t : FeedType) (topics : List String) :
    Option (List PaperData) × LocalStore :=
  let key := getCacheKey t topics
  match store key with
  | none => (none, store)
  | some e =>
    if now - e.timestamp < ttlOf t then (some e.papers, store)
    else (none, removeItem store key)

/-- `saveCache` (geminiService.ts 60–71); the quota-failure `catch` merely
swallows a failed write, modelled as the write succeeding or the store
being returned unchanged by the caller's choice of environment — here the
successful write. -/
def saveCacheM (store : LocalStore) (now : Int) (t : FeedType) (topics : List String)
    (papers : List PaperData) : LocalStore :=
  setItem store (getCacheKey t topics) ⟨now, papers⟩

/-! ## Streaming orchestrator (`fetchLiteratureAnalysisStream`,
geminiService.ts 256–292)

The two swarm agents run sequentially; each nonempty batch is yielded;
the concatenation is cached when nonempty.  The completion service is the
`call` oracle (indexed by agent order); prompt construction does not feed
back into any claim and is left inside the oracle. -/

/-- Ambient facilities of one orchestrator run: `Date.now()`/`new Date()`
at the start of the run, `Date.now()` when the cache is written (the run
awaits network calls in between), the completion outcome per agent, the
id draws per agent and record, and the `Date` parser. -/
structure StreamEnv where
  now : Int
  nowWrite : Int
  call : Nat → Option AgentResp
  rand : Nat → Nat → String
  parseDate : String → Option Int

/-- The `VerifyEnv` a given agent of the run works in. -/
def agentEnvOf (env : StreamEnv) (i : Nat) : VerifyEnv :=
  ⟨env.parseDate, env.now, env.rand i⟩

/-- `fetchLiteratureAnalysisStream`: on a cache hit, one yielded batch and
zero completion calls; otherwise the two-agent swarm with a 30-day cutoff,
yielding each nonempty batch, then caching the concatenation when it is
nonempty.  Returns (yielded batches, final store, completion calls
issued). -/
def fetchLiteratureAnalysisStreamM (env : StreamEnv) (topics : List String)
    (store : LocalStore) : List (List PaperData) × LocalStore × Nat :=
  match checkCacheM store env.now .live topics with
  | (some papers, s') => ([papers], s', 0)
  | (none, s') =>
    let cutoff := env.now - 2592000000
    let b0 := runHybridAgentM (agentEnvOf env 0) cutoff .live (env.call 0)
    let b1 := runHybridAgentM (agentEnvOf env 1) cutoff .live (env.call 1)
    let all := b0 ++ b1
    let yields := (if b0.length > 0 then [b0] else []) ++ (if b1.length > 0 then [b1] else [])
    let s'' := if all.length > 0 then saveCacheM s' env.nowWrite .live topics all else s'
    (yields, s'', 2)

/-! ## The earlier orchestrator's merge/dedupe
(`fetchLiteratureAnalysis`, `src/unnamed/part_012` lines 711–728) -/

/-- `normalize` inside the dedupe loop: lower-case and strip every
character that is not a lower-case letter (`/[^a-z]/g` — digits go too). -/
def normalizeLettersOnly (s : String) : String :=
  String.mk ((s.toList.map lowerChar).filter (fun c => isLowerLetter c))

/-- The dedupe fingerprint: first 20 characters of the letters-only
normalised title. -/
def fingerprint012 (title : String) : String :=
  String.mk ((normalizeLettersOnly title).toList.take 20)

/-- The dedupe loop over the concatenated agent results: a record whose
fingerprint was already seen is dropped; otherwise it is kept and its
fingerprint recorded. -/
def dedupeByFingerprint (seen : List String) : List PaperData → List PaperData
  | [] => []
  | p :: ps =>
    let fp := fingerprint012 p.title
    if seen.any (fun s => s == fp) then dedupeByFingerprint seen ps
    else p :: dedupeByFingerprint (fp :: seen) ps

/-! ## Spec-side definitions

These follow the *claims'* wording, for comparison with the source-derived
definitions above; they are used only to state refutations. -/

/-- Following the spec's words (C9): a fingerprint obtained by
lower-casing the title, stripping non-alphanumerics (digits kept), and
truncating to a prefix of `L` characters (the spec allows 20–30). -/
def specFingerprintC9 (L : Nat) (title : String) : String :=
  String.mk (((title.toList.map lowerChar).filter (fun c => isAlnumLower c)).take L)

/-- Following the spec's words (C1, strategy 2): lower-case and strip
non-alphanumerics from a title. -/
def specNormalizeTitle (s : String) : String :=
  String.mk ((s.toList.map lowerChar).filter (fun c => isAlnumLower c))

/-- Following the spec's words (C1): a citation supports a record when
(1) the claimed URL equals the citation URL, or (2) the normalised titles
contain one another, or (3) at least 0.4 of the record-title tokens
(words longer than 2 characters) are *present among* the citation's title
or snippet tokens. -/
def specGroundingMatch (it : AiItem) (c : Chunk) : Bool :=
  let urlEq := it.url != "" && it.url == c.uri
  let a := specNormalizeTitle it.title
  let b := specNormalizeTitle c.title
  let contain := containsS a b || containsS b a
  let toks := tokenizeJS it.title
  let ttoks := tokenizeJS c.title ++ tokenizeJS c.snippet
  let overlap :=
    if toks = [] then false
    else decide (2 * toks.length ≤ 5 * (toks.countP (fun t => ttoks.contains t)))
  urlEq || contain || overlap

/-! ## Concrete fixtures used by witnesses and counterexamples -/

/-- A fully well-formed parsed record (all enum guesses legal). -/
def itemCKD : AiItem :=
  { url := "https://nature.com/x", title := "Semaglutide Reduces CKD Risk",
    date := "2024-01-01", doi := "", topic := "CKD", publicationType := "Preprint",
    studyType := "Simulated", methodology := "Statistical", modality := "Imaging",
    abstractHighlight := "A", drugAndTarget := "B", context := "C",
    journalOrConference := "Nature", authors := some ["D"] }

/-- A citation whose URL and title match `itemCKD` exactly. -/
def chunkCKD : Chunk :=
  ⟨"https://nature.com/x", "Semaglutide Reduces CKD Risk", ""⟩

/-- A concrete agent environment: `Date` parses exactly the ISO day
`2024-01-01`, the run happens at that instant, and the id draw is
`"abc"`. -/
def envTest : VerifyEnv :=
  ⟨fun s => if s = "2024-01-01" then some 1704067200000 else none,
   1704067200000, fun _ => "abc"⟩

/-- The record the verifier emits for `itemCKD`/`chunkCKD`. -/
def paperCKD : PaperData :=
  { id := "live-abc", title := "Semaglutide Reduces CKD Risk",
    url := "https://nature.com/x", journalOrConference := "Nature",
    date := "2024-01-01", authors := ["D"], topic := "CKD",
    publicationType := "Preprint", studyType := "Simulated",
    methodology := "Statistical", modality := "Imaging",
    abstractHighlight := "A", drugAndTarget := "B", context := "C",
    validationScore := 90, authorsVerified := false, isLive := true,
    isPolished := false }


/-- A parsed record whose normalised title *contains* the citation's
normalised title (the spec's matching strategy 2) while sharing only one
of five significant tokens with it. -/
def itemC1 : AiItem :=
  { url := "", title := "alpha beta gamma delta epsilon", date := "2024-01-01",
    doi := "", topic := "", publicationType := "", studyType := "",
    methodology := "", modality := "", abstractHighlight := "",
    drugAndTarget := "", context := "", journalOrConference := "J",
    authors := none }

/-- A citation titled by a single word occurring inside `itemC1`'s
title. -/
def chunkC1 : Chunk := ⟨"https://example.com/b", "beta", ""⟩

/-- Claim C1 (counterexample): the spec's three-way matching criterion —
which includes normalised-title containment — accepts the pair
`itemC1`/`chunkC1`, yet the verifier of `runHybridAgent` discards the
record: the code knows no containment strategy and its token-overlap
(1 of 5 tokens) stays below 0.4, so the claimed "kept iff matched"
equivalence is false at this input. -/
theorem c1_containment_counterexample :
    specGroundingMatch itemC1 chunkC1 = true ∧
    verifyRecords envTest 1701475200000 .live [itemC1] [chunkC1] = .ok [] := by
  exact ⟨by rfl, by rfl⟩

/-- Claim C1 (amended): a parsed record contributes a verified paper iff
some grounding citation with a truthy URI matches it by exact URL
equality or by ≥ 0.4 token overlap with the citation's *title* (tokens
matching by substring containment in either direction; snippets and
whole-title containment play no part), and the record additionally passes
the date filter.  Stated as: the verifier emits exactly one record per
accepted parsed record. -/
theorem c1_kept_iff_matched_and_dated (env : VerifyEnv) (cutoff : Int) (ft : FeedType)
    (items : List AiItem) (chunks : List Chunk) (out : List PaperData)
    (h : verifyRecords env cutoff ft items chunks = .ok out) :
    out.length = items.countP (accepted env cutoff chunks) := by
  suffices H : ∀ items k out,
      verifyLoop env cutoff ft chunks items k = .ok out →
      out.length = items.countP (accepted env cutoff chunks) from H items 0 out h
  intro items
  induction items with
  | nil =>
    intro k out h
    simp only [verifyLoop] at h
    cases h
    simp
  | cons it rest ih =>
    intro k out h
    simp only [verifyLoop] at h
    rcases hm : findMatchedChunk chunks it with _ | c
    · rw [hm] at h
      dsimp only [] at h
      simp only [List.countP_cons, accepted, hm, ih k out h]
      simp
    · rw [hm] at h
      dsimp only [] at h
      rcases hd : dateResultOf env cutoff it c with _ | d
      · rw [hd] at h
        dsimp only [] at h
        simp only [List.countP_cons, accepted, hm, hd, ih k out h]
        simp
      · rw [hd] at h
        dsimp only [] at h
        rcases he : emitRecord env ft k it c d with e | r
        · rw [he] at h
          exact Except.noConfusion h
        · rw [he] at h
          rcases hrest : verifyLoop env cutoff ft chunks rest (k + 1) with e | rs
          · rw [hrest] at h
            exact Except.noConfusion h
          · rw [hrest] at h
            have h' : Except.ok (r :: rs) = Except.ok out := h
            injection h' with h2
            subst h2
            simp only [List.countP_cons, accepted, hm, hd, List.length_cons, ih (k + 1) rs hrest]
            simp

/-- Claim C1 (witness): the amended characterisation applied to a record
the verifier accepts — one emitted paper, one accepted item. -/
theorem c1_kept_iff_matched_and_dated_witness :
    ([paperCKD] : List PaperData).length
      = [itemCKD].countP (accepted envTest 1701475200000 [chunkCKD]) :=
  c1_kept_iff_matched_and_dated envTest 1701475200000 .live [itemCKD] [chunkCKD]
    [paperCKD] (by rfl)

/-- Claim C2: the normaliser is meant to map any out-of-set AI string to a
defined default, but membership is tested with the JS `in` operator, which
consults the compiled enum's *keys* (member names).  The AI string
`"PreClinical"` — the member name, not the member value `"Pre-clinical"`
— therefore passes through verbatim, and the emitted record carries a
`studyType` outside the closed value set. -/
theorem c2_enum_name_passthrough :
    (verifyRecords envTest 1701475200000 .live
        [{ itemCKD with studyType := "PreClinical" }] [chunkCKD]).map
      (fun l => l.map PaperData.studyType) = .ok ["PreClinical"] ∧
    "PreClinical" ∉ studyTypeValues := by
  exact ⟨by rfl, by decide⟩

/-- A parsed record realising the spec's C3 example scenario: AI title
`"X"`, claimed URL `https://nature.com/x`, in-window date. -/
def itemX : AiItem :=
  { url := "https://nature.com/x", title := "X", date := "2024-01-01",
    doi := "", topic := "CKD", publicationType := "Preprint",
    studyType := "Simulated", methodology := "Statistical",
    modality := "Imaging", abstractHighlight := "A", drugAndTarget := "B",
    context := "C", journalOrConference := "Nature", authors := some ["D"] }

/-- The citation of the C3 scenario: title exactly `"X"`, URI
`https://nature.com/x`. -/
def chunkX : Chunk := ⟨"https://nature.com/x", "X", ""⟩

/-- Claim C3 (counterexample): in the spec's own scenario the verifier
emits title `"X"` and url `https://nature.com/x`, but marks the record
`authorsVerified = false` — the current service never sets the flag to
`true` (and never overwrites the title from the citation), so the claimed
`authorsVerified=true` is false at this input. -/
theorem c3_authors_verified_counterexample :
    (verifyRecords envTest 1701475200000 .live [itemX] [chunkX]).map
      (fun l => l.map (fun r => (r.title, r.url, r.authorsVerified)))
      = .ok [("X", "https://nature.com/x", false)] := by
  rfl

/-- Claim C3 (amended): for a matched record that passes the date filter,
the emitted title is the AI record's own title (no citation overwrite, no
suffix stripping), the url is the citation URI unless a truthy DOI
containing `"10."` was extracted (then the canonical
`https://doi.org/<doi>`), and the record is marked
`authorsVerified = false`. -/
theorem c3_matched_record_fields (env : VerifyEnv) (cutoff : Int) (ft : FeedType)
    (it : AiItem) (chunks : List Chunk) (c : Chunk) (d : Int)
    (hm : findMatchedChunk chunks it = some c)
    (hd : dateResultOf env cutoff it c = some d)
    (hj : it.journalOrConference ≠ "" ∨ (jsURLHostname (finalUrlOf it c)).isSome = true) :
    (verifyRecords env cutoff ft [it] chunks).map
      (fun l => l.map (fun r => (r.title, r.url, r.authorsVerified)))
      = .ok [(it.title,
              if it.doi ≠ "" ∧ containsS it.doi "10." then
                "https://doi.org/" ++ trimJS it.doi
              else c.uri,
              false)] := by
  have hemit : ∃ j, emitRecord env ft 0 it c d = .ok
      { id := ftStr ft ++ "-" ++ env.rand 0
        title := it.title
        url := finalUrlOf it c
        journalOrConference := j
        date := toIsoDate d
        authors := it.authors.getD ["Unknown"]
        topic := mapToDiseaseTopic it.topic
        publicationType :=
          if ft = .patent then "Patent"
          else if jsIn it.publicationType publicationTypePairs then it.publicationType
          else "Peer Reviewed"
        studyType := if jsIn it.studyType studyTypePairs then it.studyType else "Pre-clinical"
        methodology :=
          if ft = .ai then "AI/ML"
          else if jsIn it.methodology methodologyPairs then it.methodology
          else "Statistical"
        modality := if jsIn it.modality modalityPairs then it.modality else "Other"
        abstractHighlight :=
          if it.abstractHighlight ≠ "" then it.abstractHighlight else "Summary unavailable."
        drugAndTarget := if it.drugAndTarget ≠ "" then it.drugAndTarget else "N/A"
        context := if it.context ≠ "" then it.context else ftUpper ft ++ " Feed Result"
        validationScore := 90
        authorsVerified := false
        isLive := true
        isPolished := false } := by
    rcases hj with hj | hj
    · refine ⟨it.journalOrConference, ?_⟩
      simp only [emitRecord]
      rw [if_pos hj]
      rfl
    · rcases hh : jsURLHostname (finalUrlOf it c) with _ | hname
      · rw [hh] at hj
        simp at hj
      · by_cases hje : it.journalOrConference = ""
        · refine ⟨replaceFirst hname "www." "", ?_⟩
          simp only [emitRecord]
          rw [if_neg (not_not_intro hje), hh]
          rfl
        · refine ⟨it.journalOrConference, ?_⟩
          simp only [emitRecord]
          rw [if_pos hje]
          rfl
  rcases hemit with ⟨j, hemit⟩
  simp only [verifyRecords, verifyLoop, hm, hd, hemit]
  rfl

/-- Claim C3 (witness): the amended description applied to a concrete
matched, date-valid record. -/
theorem c3_matched_record_fields_witness :
    (verifyRecords envTest 1701475200000 .live [itemCKD] [chunkCKD]).map
      (fun l => l.map (fun r => (r.title, r.url, r.authorsVerified)))
      = .ok [("Semaglutide Reduces CKD Risk",
              if (itemCKD.doi ≠ "" ∧ containsS itemCKD.doi "10.") then
                "https://doi.org/" ++ trimJS itemCKD.doi
              else chunkCKD.uri,
              false)] :=
  c3_matched_record_fields envTest 1701475200000 .live itemCKD [chunkCKD] chunkCKD
    1704067200000 (by rfl) (by rfl) (Or.inl (by decide))

/-- Claim C4: `parseJSON` is supposed to always return an array, but the
value of a successfully parsed fenced block is returned unchecked: on the
input `"```json\nnull\n```"` (a fenced JSON `null`) it returns `null`,
not an array — contradicting both the claim and the function's own
declared `any[]` return type. -/
theorem c4_fenced_null_not_array :
    parseJSON "```json\nnull\n```" = JsValue.null ∧
    ∀ l : List JsValue, JsValue.null ≠ JsValue.arr l := by
  refine ⟨by rfl, ?_⟩
  intro l h
  exact JsValue.noConfusion h

/-- The two-fenced-block input of the C5 counterexample. -/
def textTwoBlocks : String :=
  "pre ```json\n[1]\n``` mid ```json\n[2]\n``` post"

/-- Claim C5 (counterexample): with two fenced JSON blocks `[1]` and `[2]`,
the parser returns the contents of the *first* block, not the last one the
claim prescribes (the regex in the current service carries no global flag,
and `String.match` yields the first occurrence). -/
theorem c5_first_block_counterexample :
    parseJSON textTwoBlocks = .arr [.num "1"] ∧
    lastFenceContent textTwoBlocks = some "[2]" ∧
    jsonParse "[2]" = .ok (.arr [.num "2"]) ∧
    JsValue.arr [JsValue.num "1"] ≠ JsValue.arr [JsValue.num "2"] := by
  refine ⟨by rfl, by rfl, by rfl, ?_⟩
  intro h
  simp at h

/-- Claim C5 (amended): the parser parses the *first* fenced JSON block
and returns its value on success; if that block's contents fail to parse
the result is the empty array (the thrown `SyntaxError` skips the
fallback); the first-`[`-to-last-`]` slice is attempted only when no
fenced block is present. -/
theorem c5_first_block_then_bracket_slice (text : String) :
    (∀ cn, firstFenceContent text = some cn →
      (∀ v, jsonParse cn = .ok v → parseJSON text = v) ∧
      (∀ e, jsonParse cn = .error e → parseJSON text = .arr [])) ∧
    (firstFenceContent text = none →
      ∀ s e v, indexOfCharStr text '[' = some s → lastIndexOfCharStr text ']' = some e →
        jsonParse (substringJS text s (e + 1)) = .ok v → parseJSON text = v) := by
  constructor
  · intro cn hf
    constructor
    · intro v hv
      simp [parseJSON, hf, hv]
    · intro e he
      simp [parseJSON, hf, he]
  · intro hf s e v hs hel hv
    simp [parseJSON, hf, hs, hel, hv]

/-- Claim C5 (witness): the amended description applied to a concrete
fenced input. -/
theorem c5_first_block_then_bracket_slice_witness :
    parseJSON "```json\n[]\n```" = .arr [] :=
  ((c5_first_block_then_bracket_slice "```json\n[]\n```").1 "[]" (by rfl)).1
    (.arr []) (by rfl)

/-- Claim C6: a cache read within the TTL of the entry's feed variant
returns the stored papers and leaves the store unchanged; once
`now - timestamp ≥ TTL` the read reports a miss *and removes the key from
the store*. -/
theorem c6_ttl_read_semantics (store : LocalStore) (now t : Int) (ty : FeedType)
    (topics : List String) (papers : List PaperData)
    (h : store (getCacheKey ty topics) = some ⟨t, papers⟩) :
    (now - t < ttlOf ty → checkCacheM store now ty topics = (some papers, store)) ∧
    (ttlOf ty ≤ now - t →
      (checkCacheM store now ty topics).1 = none ∧
      (checkCacheM store now ty topics).2 (getCacheKey ty topics) = none) := by
  constructor
  · intro hlt
    simp [checkCacheM, h, hlt]
  · intro hge
    have hnlt : ¬ (now - t < ttlOf ty) := not_lt.mpr hge
    refine ⟨?_, ?_⟩
    · simp [checkCacheM, h, hnlt]
    · simp [checkCacheM, h, hnlt, removeItem]

/-- A store holding one live-feed entry for the `["CKD"]` filter set,
written at epoch-ms 1704067200000. -/
def storeC6 : LocalStore :=
  fun k => if k = getCacheKey .live ["CKD"] then some ⟨1704067200000, [paperCKD]⟩ else none

/-- Claim C6 (witness): reading the concrete entry exactly at
`timestamp + TTL` misses and deletes the key. -/
theorem c6_ttl_read_semantics_witness :
    (checkCacheM storeC6 1704068100000 .live ["CKD"]).1 = none ∧
    (checkCacheM storeC6 1704068100000 .live ["CKD"]).2 (getCacheKey .live ["CKD"]) = none :=
  (c6_ttl_read_semantics storeC6 1704068100000 1704067200000 .live ["CKD"] [paperCKD]
    (by rfl)).2 (by decide)

/-- Claim C7: running the stream once past a cache miss and then again
with the same filter set while the written entry is still fresh serves the
second run entirely from the cache — zero completion calls, a single
yielded batch equal to the first run's flattened output (ids included),
and an unchanged store. -/
theorem c7_second_run_served_from_cache (env1 env2 : StreamEnv) (topics : List String)
    (store0 : LocalStore)
    (hmiss : (checkCacheM store0 env1.now .live topics).1 = none)
    (hne : (fetchLiteratureAnalysisStreamM env1 topics store0).1.flatten ≠ [])
    (hfresh : env2.now - env1.nowWrite < 900000) :
    (fetchLiteratureAnalysisStreamM env2 topics
        (fetchLiteratureAnalysisStreamM env1 topics store0).2.1).2.2 = 0 ∧
    (fetchLiteratureAnalysisStreamM env2 topics
        (fetchLiteratureAnalysisStreamM env1 topics store0).2.1).1
      = [(fetchLiteratureAnalysisStreamM env1 topics store0).1.flatten] ∧
    (fetchLiteratureAnalysisStreamM env2 topics
        (fetchLiteratureAnalysisStreamM env1 topics store0).2.1).2.1
      = (fetchLiteratureAnalysisStreamM env1 topics store0).2.1 := by
  have hcc : checkCacheM store0 env1.now .live topics
      = (none, (checkCacheM store0 env1.now .live topics).2) := by
    rw [← hmiss]
  set b0 := runHybridAgentM (agentEnvOf env1 0) (env1.now - 2592000000) .live (env1.call 0)
    with hb0
  set b1 := runHybridAgentM (agentEnvOf env1 1) (env1.now - 2592000000) .live (env1.call 1)
    with hb1
  set s' := (checkCacheM store0 env1.now .live topics).2 with hs'
  have hr1 : fetchLiteratureAnalysisStreamM env1 topics store0
      = ((if b0.length > 0 then [b0] else []) ++ (if b1.length > 0 then [b1] else []),
         (if (b0 ++ b1).length > 0 then
            saveCacheM s' env1.nowWrite .live topics (b0 ++ b1)
          else s'), 2) := by
    simp only [fetchLiteratureAnalysisStreamM]
    rw [hcc]
  have hjoin : ∀ u v : List PaperData,
      ((if u.length > 0 then [u] else []) ++ (if v.length > 0 then [v] else [])).flatten
        = u ++ v := by
    intro u v
    rcases u with _ | ⟨x, xs⟩ <;> rcases v with _ | ⟨y, ys⟩ <;> simp
  have hall : (fetchLiteratureAnalysisStreamM env1 topics store0).1.flatten = b0 ++ b1 := by
    rw [hr1]
    exact hjoin b0 b1
  have hne' : b0 ++ b1 ≠ [] := by
    rw [hall] at hne
    exact hne
  have hlen : (b0 ++ b1).length > 0 := List.length_pos.mpr hne'
  have hstore1 : (fetchLiteratureAnalysisStreamM env1 topics store0).2.1
      = saveCacheM s' env1.nowWrite .live topics (b0 ++ b1) := by
    rw [hr1]
    show (if (b0 ++ b1).length > 0 then
        saveCacheM s' env1.nowWrite .live topics (b0 ++ b1) else s') = _
    rw [if_pos hlen]
  have hkey : saveCacheM s' env1.nowWrite .live topics (b0 ++ b1) (getCacheKey .live topics)
      = some ⟨env1.nowWrite, b0 ++ b1⟩ := by
    simp [saveCacheM, setItem]
  have hcc2 : checkCacheM (saveCacheM s' env1.nowWrite .live topics (b0 ++ b1))
        env2.now .live topics
      = (some (b0 ++ b1), saveCacheM s' env1.nowWrite .live topics (b0 ++ b1)) := by
    simp only [checkCacheM, hkey]
    rw [if_pos]
    exact hfresh
  have hr2 : fetchLiteratureAnalysisStreamM env2 topics
        (saveCacheM s' env1.nowWrite .live topics (b0 ++ b1))
      = ([b0 ++ b1], saveCacheM s' env1.nowWrite .live topics (b0 ++ b1), 0) := by
    simp only [fetchLiteratureAnalysisStreamM]
    rw [hcc2]
  refine ⟨?_, ?_, ?_⟩
  · rw [hstore1, hr2]
  · rw [hstore1, hr2, hall]
  · rw [hstore1, hr2]

/-- The empty browser store. -/
def storeEmpty : LocalStore := fun _ => none

/-- A first orchestrator run: agent 0 returns `itemCKD`/`chunkCKD`,
agent 1's call fails. -/
def streamEnv1 : StreamEnv :=
  { now := 1704067200000, nowWrite := 1704067200500,
    call := fun i => if i = 0 then some ⟨[itemCKD], [chunkCKD]⟩ else none,
    rand := fun _ _ => "abc",
    parseDate := fun s => if s = "2024-01-01" then some 1704067200000 else none }

/-- A second orchestrator run 99.5 seconds later whose completion service
would fail — it must not be consulted at all. -/
def streamEnv2 : StreamEnv :=
  { now := 1704067300000, nowWrite := 1704067300500,
    call := fun _ => none,
    rand := fun _ _ => "zzz",
    parseDate := fun _ => none }

/-- Claim C7 (witness): the idempotence theorem applied to the concrete
two-run scenario. -/
theorem c7_second_run_served_from_cache_witness :
    (fetchLiteratureAnalysisStreamM streamEnv2 ["CKD"]
        (fetchLiteratureAnalysisStreamM streamEnv1 ["CKD"] storeEmpty).2.1).2.2 = 0 ∧
    (fetchLiteratureAnalysisStreamM streamEnv2 ["CKD"]
        (fetchLiteratureAnalysisStreamM streamEnv1 ["CKD"] storeEmpty).2.1).1
      = [(fetchLiteratureAnalysisStreamM streamEnv1 ["CKD"] storeEmpty).1.flatten] ∧
    (fetchLiteratureAnalysisStreamM streamEnv2 ["CKD"]
        (fetchLiteratureAnalysisStreamM streamEnv1 ["CKD"] storeEmpty).2.1).2.1
      = (fetchLiteratureAnalysisStreamM streamEnv1 ["CKD"] storeEmpty).2.1 :=
  c7_second_run_served_from_cache streamEnv1 streamEnv2 ["CKD"] storeEmpty
    (by rfl) (by decide) (by decide)

/-- An attempt oracle whose first completion call fails while every retry
would succeed with a verifiable response. -/
def attFail0 : Nat → Option AgentResp :=
  fun i => if i = 0 then none else some ⟨[itemCKD], [chunkCKD]⟩

/-- Claim C8 (counterexample): when the single completion call fails, the
current agent makes no further attempt and resolves to `[]` — even though
the earlier revision's `generateContentWithRetry` (2 retries, exponential
backoff) would have succeeded on the second call and its response
verifies to a nonempty record list.  The claimed retry/backoff/fallback
behaviour is absent from the current service. -/
theorem c8_no_retry_counterexample :
    runHybridAgentCalls envTest 1701475200000 .live attFail0 = ([], 1) ∧
    (generateContentWithRetryM attFail0 2).2 = 2 ∧
    (generateContentWithRetryM attFail0 2).1 = some ⟨[itemCKD], [chunkCKD]⟩ ∧
    processResp envTest 1701475200000 .live ⟨[itemCKD], [chunkCKD]⟩ ≠ [] := by
  exact ⟨by rfl, by rfl, by rfl, by decide⟩

/-- Claim C8 (amended): the current agent issues exactly one completion
call — no retry, no backoff, no non-grounded fallback — and a failed call
is caught, resolving the agent to an empty record list instead of
propagating an error. -/
theorem c8_single_call_error_to_empty (env : VerifyEnv) (cutoff : Int) (ft : FeedType)
    (attempts : Nat → Option AgentResp) :
    (runHybridAgentCalls env cutoff ft attempts).2 = 1 ∧
    (attempts 0 = none → (runHybridAgentCalls env cutoff ft attempts).1 = []) := by
  refine ⟨rfl, fun h => ?_⟩
  simp [runHybridAgentCalls, runHybridAgentM, h]

/-- Claim C8 (witness): the amended description at a concrete
always-failing oracle. -/
theorem c8_single_call_error_to_empty_witness :
    (runHybridAgentCalls envTest 1701475200000 .live (fun _ => none)).2 = 1 ∧
    (runHybridAgentCalls envTest 1701475200000 .live (fun _ => none)).1 = [] :=
  ⟨(c8_single_call_error_to_empty envTest 1701475200000 .live (fun _ => none)).1,
   (c8_single_call_error_to_empty envTest 1701475200000 .live (fun _ => none)).2 rfl⟩

/-- A paper record carrying only a title (the dedupe step looks at nothing
else). -/
def mkPaperTitle (t : String) : PaperData :=
  { id := "", title := t, url := "", journalOrConference := "", date := "",
    authors := [], topic := "", publicationType := "", studyType := "",
    methodology := "", modality := "", abstractHighlight := "",
    drugAndTarget := "", context := "", validationScore := 0,
    authorsVerified := false, isLive := false, isPolished := false }

/-- Claim C9 (counterexample): two titles whose spec fingerprints
(lower-case, non-alphanumerics stripped — digits kept — prefix of any
length from 20 to 30) coincide, yet the merge keeps *both* records: the
source normalisation strips digits as well (`/[^a-z]/g`), so the
letters-only 20-character fingerprints differ. -/
theorem c9_digit_fingerprint_counterexample :
    ((List.range' 20 11).all
      (fun L => specFingerprintC9 L "a1b2c3d4e5f6g7h8i9j0k1l2m3n4o5 pqrst"
        == specFingerprintC9 L "a1b2c3d4e5f6g7h8i9j0k1l2m3n4o5 pqrsu")) = true ∧
    dedupeByFingerprint []
        [mkPaperTitle "a1b2c3d4e5f6g7h8i9j0k1l2m3n4o5 pqrst",
         mkPaperTitle "a1b2c3d4e5f6g7h8i9j0k1l2m3n4o5 pqrsu"]
      = [mkPaperTitle "a1b2c3d4e5f6g7h8i9j0k1l2m3n4o5 pqrst",
         mkPaperTitle "a1b2c3d4e5f6g7h8i9j0k1l2m3n4o5 pqrsu"] := by
  exact ⟨by decide, by decide⟩

/-- The records sharing one code fingerprint keep exactly the first
occurrence: among the output, the records with any given fingerprint `f`
are the first input record with that fingerprint. -/
theorem dedupe_filter_take_one (f : String) :
    ∀ (ps : List PaperData) (seen : List String),
      (dedupeByFingerprint seen ps).filter (fun p => fingerprint012 p.title == f)
        = if seen.any (fun s => s == f) then []
          else (ps.filter (fun p => fingerprint012 p.title == f)).take 1 := by
  intro ps
  induction ps with
  | nil =>
    intro seen
    simp [dedupeByFingerprint]
  | cons p ps ih =>
    intro seen
    by_cases hseen : seen.any (fun s => s == fingerprint012 p.title)
    · rw [show dedupeByFingerprint seen (p :: ps) = dedupeByFingerprint seen ps from by
        simp [dedupeByFingerprint, hseen]]
      rw [ih seen]
      by_cases hf : fingerprint012 p.title = f
      · have hc : seen.any (fun s => s == f) := hf ▸ hseen
        simp [hc]
      · have hb : (fingerprint012 p.title == f) = false := beq_eq_false_iff_ne.mpr hf
        by_cases hc : seen.any (fun s => s == f)
        · simp [hc]
        · simp [hc, List.filter_cons, hb]
    · rw [show dedupeByFingerprint seen (p :: ps)
          = p :: dedupeByFingerprint (fingerprint012 p.title :: seen) ps from by
        simp [dedupeByFingerprint, hseen]]
      by_cases hf : fingerprint012 p.title = f
      · have hb : (fingerprint012 p.title == f) = true := beq_iff_eq.mpr hf
        have hcf : ¬ seen.any (fun s => s == f) := by
          rw [← hf]
          exact hseen
        have hc' : ((fingerprint012 p.title :: seen).any (fun s => s == f)) = true := by
          simp [List.any_cons, hb]
        rw [List.filter_cons]
        rw [ih (fingerprint012 p.title :: seen), if_pos hc']
        simp [hb, hcf, List.filter_cons]
      · have hb : (fingerprint012 p.title == f) = false := beq_eq_false_iff_ne.mpr hf
        have hc' : ((fingerprint012 p.title :: seen).any (fun s => s == f))
            = seen.any (fun s => s == f) := by
          simp [List.any_cons, hb]
        rw [List.filter_cons]
        rw [ih (fingerprint012 p.title :: seen), hc']
        by_cases hc : seen.any (fun s => s == f)
        · simp [hc, hb]
        · simp [hc, hb, List.filter_cons]

/-- Claim C9 (amended): in the earlier parallel-swarm orchestrator, merge
deduplication uses the fingerprint "lower-case, *letters only* (digits
stripped too), first 20 characters"; among records sharing a fingerprint
exactly one — the first occurrence — survives, and the spec's concrete
Semaglutide pair is deduplicated to its first record.  (The current
streaming orchestrator performs no deduplication at all; see the C9
notes.) -/
theorem c9_dedupe_first_occurrence_wins :
    (∀ (ps : List PaperData) (f : String),
      (dedupeByFingerprint [] ps).filter (fun p => fingerprint012 p.title == f)
        = (ps.filter (fun p => fingerprint012 p.title == f)).take 1) ∧
    dedupeByFingerprint []
        [mkPaperTitle "Semaglutide Reduces CKD Risk",
         mkPaperTitle "semaglutide reduces ckd risk!!"]
      = [mkPaperTitle "Semaglutide Reduces CKD Risk"] := by
  constructor
  · intro ps f
    have h := dedupe_filter_take_one f ps []
    simpa using h
  · decide

/-- Claim C10: for a matched record whose date string does not parse, the
verifier keeps the record exactly when the citation's title-plus-snippet
text contains `"2024"` or `"2025"`, and then stamps it with the *day of
processing* (`new Date()` rendered as `YYYY-MM-DD`), not with any
publication date; with neither token the record is rejected. -/
theorem c10_unparseable_date_uses_today (env : VerifyEnv) (cutoff : Int) (ft : FeedType)
    (it : AiItem) (chunks : List Chunk) (c : Chunk)
    (hm : findMatchedChunk chunks it = some c)
    (hd : env.parseDate it.date = none)
    (hc : cutoff ≤ env.now)
    (hj : it.journalOrConference ≠ "" ∨ (jsURLHostname (finalUrlOf it c)).isSome = true) :
    (snippetHasRecentYear c = true →
      (verifyRecords env cutoff ft [it] chunks).map (fun l => l.map PaperData.date)
        = .ok [toIsoDate env.now]) ∧
    (snippetHasRecentYear c = false →
      verifyRecords env cutoff ft [it] chunks = .ok []) := by
  constructor
  · intro hrec
    have hdr : dateResultOf env cutoff it c = some env.now := by
      simp [dateResultOf, hd, hrec, not_lt.mpr hc]
    have hemit : ∃ j, emitRecord env ft 0 it c env.now = .ok
        { id := ftStr ft ++ "-" ++ env.rand 0
          title := it.title
          url := finalUrlOf it c
          journalOrConference := j
          date := toIsoDate env.now
          authors := it.authors.getD ["Unknown"]
          topic := mapToDiseaseTopic it.topic
          publicationType :=
            if ft = .patent then "Patent"
            else if jsIn it.publicationType publicationTypePairs then it.publicationType
            else "Peer Reviewed"
          studyType := if jsIn it.studyType studyTypePairs then it.studyType else "Pre-clinical"
          methodology :=
            if ft = .ai then "AI/ML"
            else if jsIn it.methodology methodologyPairs then it.methodology
            else "Statistical"
          modality := if jsIn it.modality modalityPairs then it.modality else "Other"
          abstractHighlight :=
            if it.abstractHighlight ≠ "" then it.abstractHighlight else "Summary unavailable."
          drugAndTarget := if it.drugAndTarget ≠ "" then it.drugAndTarget else "N/A"
          context := if it.context ≠ "" then it.context else ftUpper ft ++ " Feed Result"
          validationScore := 90
          authorsVerified := false
          isLive := true
          isPolished := false } := by
      rcases hj with hj | hj
      · refine ⟨it.journalOrConference, ?_⟩
        simp only [emitRecord]
        rw [if_pos hj]
        rfl
      · rcases hh : jsURLHostname (finalUrlOf it c) with _ | hname
        · rw [hh] at hj
          simp at hj
        · by_cases hje : it.journalOrConference = ""
          · refine ⟨replaceFirst hname "www." "", ?_⟩
            simp only [emitRecord]
            rw [if_neg (not_not_intro hje), hh]
            rfl
          · refine ⟨it.journalOrConference, ?_⟩
            simp only [emitRecord]
            rw [if_pos hje]
            rfl
    rcases hemit with ⟨j, he⟩
    simp only [verifyRecords, verifyLoop, hm, hdr, he]
    rfl
  · intro hrec
    have hdr : dateResultOf env cutoff it c = none := by
      simp [dateResultOf, hd, hrec]
    simp only [verifyRecords, verifyLoop, hm, hdr]

/-- The record of the C10 witness: in-window claimed URL but a date the
runtime cannot parse. -/
def itemC10 : AiItem := { itemCKD with date := "unknown" }

/-- The citation of the C10 witness: URL-matching, with `"2024"` in its
title. -/
def chunkC10 : Chunk := ⟨"https://nature.com/x", "Semaglutide 2024 CKD study", ""⟩

/-- Claim C10 (witness): an unparseable-date record whose citation
mentions 2024 is kept and dated with the day of processing. -/
theorem c10_unparseable_date_uses_today_witness :
    (verifyRecords envTest 1701475200000 .live [itemC10] [chunkC10]).map
      (fun l => l.map PaperData.date) = .ok [toIsoDate envTest.now] :=
  (c10_unparseable_date_uses_today envTest 1701475200000 .live itemC10 [chunkC10] chunkC10
    (by rfl) (by rfl) (by decide) (Or.inl (by decide))).1 (by rfl)
